import Mathlib

/-!
Verification development for the snaps job-execution and multiplexing core.

The data model and operations below are shallow embeddings of the TypeScript
sources (packages/snaps-utils/src/json.ts, the dev server, the manifest CLI
command) together with spec-modelled definitions for the parts of the core
whose implementation is not among the sources (the Relay/Proxy Executor, the
Execution Service dispatcher and its liveness policy); each spec-modelled
definition is marked as such in its doc comment.
-/

namespace Snaps

mutual

/-- Structured JSON values, as produced by the environment JSON parser.
Declared mutually with its list forms so that recursion and induction over
object fields and array elements is structural. -/
inductive Json where
  | null : Json
  | bool (b : Bool) : Json
  | num (n : Int) : Json
  | str (s : String) : Json
  | arr (elems : JsonList) : Json
  | obj (fields : JsonFields) : Json
deriving DecidableEq

inductive JsonList where
  | nil : JsonList
  | cons (head : Json) (tail : JsonList) : JsonList
deriving DecidableEq

inductive JsonFields where
  | nil : JsonFields
  | cons (key : String) (value : Json) (tail : JsonFields) : JsonFields
deriving DecidableEq

end

/-- Look up the first field with the given key in an object field list. -/
def JsonFields.lookup (key : String) : JsonFields → Option Json
  | .nil => none
  | .cons k v tail => if k = key then some v else tail.lookup key

mutual

/-- Embeds getSafeJson from the utils package, as used (and documented) by
parseJson in src/packages/snaps-utils/src/json.ts: it strips the unwanted
properties __proto__ and constructor from every object, recursively, and
leaves all other data unchanged. -/
def getSafeJson : Json → Json
  | .null => .null
  | .bool b => .bool b
  | .num n => .num n
  | .str s => .str s
  | .arr elems => .arr (getSafeJsonList elems)
  | .obj fields => .obj (getSafeJsonFields fields)

def getSafeJsonList : JsonList → JsonList
  | .nil => .nil
  | .cons head tail => .cons (getSafeJson head) (getSafeJsonList tail)

def getSafeJsonFields : JsonFields → JsonFields
  | .nil => .nil
  | .cons k v tail =>
      if k = "__proto__" ∨ k = "constructor" then getSafeJsonFields tail
      else .cons k (getSafeJson v) (getSafeJsonFields tail)

end

/-- Embeds parseJson from src/packages/snaps-utils/src/json.ts. The textual
JSON.parse step is performed by the environment parser; this embedding works
on its structured result, so parseJson is getSafeJson applied to the parse
result of the input string. -/
def parseJson (parsed : Json) : Json :=
  getSafeJson parsed

mutual

/-- Whether a JSON value contains no __proto__ or constructor object key
anywhere. -/
def noUnsafeKeys : Json → Bool
  | .null => true
  | .bool _ => true
  | .num _ => true
  | .str _ => true
  | .arr elems => noUnsafeKeysList elems
  | .obj fields => noUnsafeKeysFields fields

def noUnsafeKeysList : JsonList → Bool
  | .nil => true
  | .cons head tail => noUnsafeKeys head && noUnsafeKeysList tail

def noUnsafeKeysFields : JsonFields → Bool
  | .nil => true
  | .cons k v tail =>
      decide (k ≠ "__proto__") && decide (k ≠ "constructor") &&
        noUnsafeKeys v && noUnsafeKeysFields tail

end

/-- Whether a payload is a well-formed command: an object with a string
method field and a numeric id field (wire shape of the spec). -/
def isCommandShape (d : Json) : Bool :=
  match d with
  | .obj fields =>
      (match fields.lookup "method" with
        | some (.str _) => true
        | _ => false) &&
      (match fields.lookup "id" with
        | some (.num _) => true
        | _ => false)
  | _ => false

/-- Whether a payload is a well-formed response: an object with a numeric id
field and a result or error field (wire shape of the spec). -/
def isResponseShape (d : Json) : Bool :=
  match d with
  | .obj fields =>
      (match fields.lookup "id" with
        | some (.num _) => true
        | _ => false) &&
      ((fields.lookup "result").isSome || (fields.lookup "error").isSome)
  | _ => false

/-- A well-formed payload is either a command or a response. -/
def wellFormedPayload (d : Json) : Bool :=
  isCommandShape d || isResponseShape d

/-- The request id of a response payload, when present. -/
def responseId (d : Json) : Option Int :=
  match d with
  | .obj fields =>
      match fields.lookup "id" with
      | some (.num n) => some n
      | _ => none
  | _ => none

/-- Modelled from the spec: the Envelope Codec encode operation builds the
wire object tagging the payload with its job identifier (the codec
implementation is not among the sources). -/
def encode (jobId : String) (payload : Json) : Json :=
  .obj (.cons "jobId" (.str jobId) (.cons "data" payload .nil))

/-- Decode failures of the Envelope Codec. -/
inductive DecodeError where
  | invalidJson : DecodeError
  | missingJobId : DecodeError
  | malformedData : DecodeError
deriving DecidableEq

/-- Structural validation of a parsed wire value: requires a string jobId
field and a data field holding a well-formed command or response. -/
def decodeValue (j : Json) : Except DecodeError (String × Json) :=
  match j with
  | .obj fields =>
      match fields.lookup "jobId" with
      | some (.str jobId) =>
          match fields.lookup "data" with
          | some d =>
              if wellFormedPayload d then .ok (jobId, d)
              else .error .malformedData
          | none => .error .malformedData
      | _ => .error .missingJobId
  | _ => .error .missingJobId

/-- Modelled from the spec: the Envelope Codec decode operation (its
implementation is not among the sources; the payload-parsing step is the
parseJson function of src/packages/snaps-utils/src/json.ts). The input is
the result of the textual parse of the received bytes: none when the input
is not valid serialized structured data, some j for the parsed value, which
is safe-parsed by parseJson and then structurally validated. Decoding is a
total function into Except: it reports DecodeError values and never throws
into the caller. -/
def decode (wire : Option Json) : Except DecodeError (String × Json) :=
  match wire with
  | none => .error .invalidJson
  | some j => decodeValue (parseJson j)

/-- One job record of the Execution Service registry: its identity and the
request ids of its pending requests. -/
structure ExecJob where
  id : String
  pending : List Int
deriving DecidableEq

/-- The Execution Service registry: one record per live job. -/
structure ExecState where
  jobs : List ExecJob
deriving DecidableEq

/-- Look up a job record by id. -/
def findJob (st : ExecState) (jobId : String) : Option ExecJob :=
  st.jobs.find? (fun job => decide (job.id = jobId))

/-- Observable teardown side effects of terminating a job. -/
inductive TeardownEffect where
  | rejectPending (jobId : String) (reqId : Int)
  | closeStream (jobId : String)
deriving DecidableEq

/-- Modelled from the spec: terminateJob of the Execution Service (its
implementation is not among the sources). Teardown ordering of the spec:
reject every pending request of the job (JobTerminatedError), close the
stream, remove the record from the registry; terminating an unknown or
already-terminated id is a no-op with no effects. -/
def terminateJob (st : ExecState) (jobId : String) : ExecState × List TeardownEffect :=
  match findJob st jobId with
  | none => (st, [])
  | some job =>
      (⟨st.jobs.filter (fun j => decide (j.id ≠ jobId))⟩,
        job.pending.map (fun reqId => TeardownEffect.rejectPending jobId reqId)
          ++ [TeardownEffect.closeStream jobId])

/-- What the dispatcher does with a correlated response: resolve exactly one
pending request, or drop the unmatched response and log it. -/
inductive Delivery where
  | resolve (jobId : String) (reqId : Int)
  | dropLog
deriving DecidableEq

/-- Modelled from the spec: response dispatch of the Execution Service (its
implementation is not among the sources). A response envelope resolves the
pending request with the matching request id of the job with the matching
jobId, removing it from that job's pending table; a response matching no
pending entry is dropped and logged, never delivered. -/
def onResponse (st : ExecState) (jobId : String) (reqId : Int) : ExecState × List Delivery :=
  match findJob st jobId with
  | some job =>
      if reqId ∈ job.pending then
        (⟨st.jobs.map (fun j =>
            if j.id = jobId then
              { j with pending := j.pending.filter (fun r => decide (r ≠ reqId)) }
            else j)⟩,
          [Delivery.resolve jobId reqId])
      else (st, [Delivery.dropLog])
  | none => (st, [Delivery.dropLog])

/-- Log entries produced at the stream boundary. -/
inductive LogEntry where
  | decodeFailure (e : DecodeError)
deriving DecidableEq

/-- Modelled from the spec: inbound message handling at the Message Stream
and Execution Service boundary (not among the sources). A message that fails
to decode is logged and dropped: the registry is untouched and nothing is
delivered to any pending caller. A decoded response envelope is dispatched
to onResponse; decoded commands are forwarded to the job and deliver nothing
to callers here. -/
def handleIncoming (st : ExecState) (wire : Option Json) :
    ExecState × List Delivery × List LogEntry :=
  match decode wire with
  | .error e => (st, [], [LogEntry.decodeFailure e])
  | .ok (jobId, d) =>
      if isResponseShape d then
        match responseId d with
        | some reqId =>
            let result := onResponse st jobId reqId
            (result.1, result.2, [])
        | none => (st, [], [])
      else (st, [], [])

/-- The fixed success reply of the ping liveness probe, as observed in the
ProxySnapExecutor tests: a response carrying the request id and result OK. -/
def pingResponse (reqId : Int) : Json :=
  .obj (.cons "jsonrpc" (.str "2.0")
    (.cons "id" (.num reqId)
      (.cons "result" (.str "OK") .nil)))

/-- Modelled from the spec: the nested executor reply to a forwarded
command. Only the reserved ping method has a fixed reply (result OK, per the
ProxySnapExecutor tests); replies to other methods come from the untrusted
snap and are outside this model. -/
def nestedExecute (method : String) (reqId : Int) : List Json :=
  if method = "ping" then [pingResponse reqId] else []

/-- The Relay/Proxy Executor state: the ids that have a nested execution
context, and the ids of the execution elements created for them. -/
structure RelayState where
  jobs : List String
  elements : List String
deriving DecidableEq

/-- Modelled from the spec: the inbound-envelope handler of the Relay/Proxy
Executor (ProxySnapExecutor; only its tests are among the sources). A
terminateJob command destroys the nested context: the execution element with
the job's id is removed and the job entry is erased, and no response is
forwarded. Any other command first creates a nested context (and its
element) when none exists for the jobId, then forwards the command; each
nested reply is wrapped with the original jobId and written to the outer
stream. -/
def handleInbound (st : RelayState) (jobId : String) (method : String) (reqId : Int) :
    RelayState × List (String × Json) :=
  if method = "terminateJob" then
    ({ jobs := st.jobs.filter (fun j => decide (j ≠ jobId)),
       elements := st.elements.filter (fun e => decide (e ≠ jobId)) }, [])
  else
    let st2 :=
      if jobId ∈ st.jobs then st
      else { jobs := jobId :: st.jobs, elements := jobId :: st.elements }
    (st2, (nestedExecute method reqId).map (fun r => (jobId, r)))

/-- Job status values of the spec lifecycle. -/
inductive JobStatus where
  | created | ready | busy | terminating | terminated
deriving DecidableEq

/-- One job under the liveness policy: status, pending request ids and the
scheduled timeout deadline, when set. -/
structure TimedJob where
  status : JobStatus
  pending : List Int
  deadline : Option Nat
deriving DecidableEq

/-- A job together with the current clock. -/
structure TimedState where
  now : Nat
  job : TimedJob
deriving DecidableEq

/-- Events of the liveness model: sending a command, receiving a response,
time passing, and the scheduled timeout firing. -/
inductive TimedEvent where
  | send (reqId : Int)
  | response (reqId : Int)
  | advance (dt : Nat)
  | checkTimeout
deriving DecidableEq

/-- Outcomes surfaced to pending callers by the liveness policy. -/
inductive LivenessOutcome where
  | rejectTimeout (reqId : Int)
deriving DecidableEq

/-- Modelled from the spec: the per-job liveness step of the Execution
Service (not among the sources). Every outbound command records its request
id and resets the job's timeout handle to now plus the configured limit; a
response removes the matching pending entry and cancels the handle when
nothing is pending; when the deadline has passed and the handle is still
set, the job is terminated and every pending request is rejected with
CommandTimeoutError. -/
def timedStep (limit : Nat) (st : TimedState) :
    TimedEvent → TimedState × List LivenessOutcome
  | .send reqId =>
      ({ st with job := { status := .busy, pending := reqId :: st.job.pending,
                          deadline := some (st.now + limit) } }, [])
  | .response reqId =>
      let remaining := st.job.pending.filter (fun r => decide (r ≠ reqId))
      ({ st with job := { status := if remaining.isEmpty then .ready else .busy,
                          pending := remaining,
                          deadline := if remaining.isEmpty then none else st.job.deadline } },
        [])
  | .advance dt => ({ st with now := st.now + dt }, [])
  | .checkTimeout =>
      match st.job.deadline with
      | some d =>
          if d ≤ st.now then
            ({ st with job := { status := .terminated, pending := [], deadline := none } },
              st.job.pending.map (fun r => LivenessOutcome.rejectTimeout r))
          else (st, [])
      | none => (st, [])

/-- Run the liveness model over a list of events, accumulating outcomes. -/
def timedRun (limit : Nat) (st : TimedState) :
    List TimedEvent → TimedState × List LivenessOutcome
  | [] => (st, [])
  | ev :: evs =>
      let first := timedStep limit st ev
      let rest := timedRun limit first.1 evs
      (rest.1, first.2 ++ rest.2)

/-- Nested manifest field source.location.npm.filePath. -/
structure NpmLocation where
  filePath : String
deriving DecidableEq

structure SnapLocation where
  npm : NpmLocation
deriving DecidableEq

structure SnapSource where
  location : SnapLocation
deriving DecidableEq

/-- A snap manifest, reduced to the field the dev server reads. -/
structure SnapManifest where
  source : SnapSource
deriving DecidableEq

/-- Options of the dev server. -/
structure ServerOptions where
  port : Nat
  root : String
deriving DecidableEq

/-- A created and listening HTTP server. -/
structure Server where
  port : Nat
  root : String
deriving DecidableEq

/-- The filesystem and manifest-validation collaborators of the dev server
(external to this repository: the fs promises API, the JSON parser and
assertIsSnapManifest). readManifest combines reading snap.manifest.json,
parsing it and asserting it is a valid snap manifest; any of those steps can
throw, modelled as Except.error carrying the thrown message. -/
structure FileSystem where
  isDirectory : String → Bool
  isFile : String → Bool
  readManifest : String → Except String SnapManifest

/-- Path resolution against a root directory. -/
def pathResolve (root rel : String) : String := root ++ "/" ++ rel

/-- Embeds assertRoot from the dev-server source: rejects an empty root, a
root that is not a directory, a manifest that fails to read, parse or
validate, and a manifest bundle path that is not a file; otherwise
succeeds. Each rejection is a thrown error, modelled as Except.error. -/
def assertRoot (env : FileSystem) (root : String) : Except String Unit :=
  if root = "" then .error "You must specify a root directory."
  else if env.isDirectory root = false then
    .error ("Root directory " ++ root ++ " is not a directory.")
  else
    match env.readManifest (pathResolve root "snap.manifest.json") with
    | .error e => .error e
    | .ok manifest =>
        if env.isFile (pathResolve root manifest.source.location.npm.filePath) = false then
          .error ("File " ++ pathResolve root manifest.source.location.npm.filePath ++
            " does not exist, or is not a file. Did you forget to build your snap?")
        else .ok ()

/-- Embeds startServer from the dev-server source: assertRoot is awaited
first; only when it succeeds are the express app created and listen called.
The Bool records whether a server was created and listened on. -/
def startServer (env : FileSystem) (options : ServerOptions) :
    Except String Server × Bool :=
  match assertRoot env options.root with
  | .error e => (.error e, false)
  | .ok _ => (.ok { port := options.port, root := options.root }, true)

/-- Runtime values the manifest command options can hold (the fix option is
declared as an optional boolean; at runtime any value can arrive). -/
inductive JsValue where
  | undef
  | bool (b : Bool)
  | num (n : Int)
  | str (s : String)
deriving DecidableEq

/-- The options object of the manifest command. -/
structure ManifestOptions where
  fix : JsValue
deriving DecidableEq

/-- Embeds getWriteManifest from
src/packages/snaps-cli/src/commands/manifest/manifest.ts: returns the fix
option when its typeof is boolean, and false otherwise (in particular when
fix is undefined or any non-boolean value). -/
def getWriteManifest (options : ManifestOptions) : Bool :=
  match options.fix with
  | .bool b => b
  | _ => false

/-- Embeds the argument pair that the manifest-validating step of
manifestHandler passes to the manifest validation routine: the input path
from the config and the write flag computed by getWriteManifest. -/
def validateManifestCall (input : String) (options : ManifestOptions) :
    String × Bool :=
  (input, getWriteManifest options)

mutual

theorem getSafeJson_eq_self (j : Json) (h : noUnsafeKeys j = true) :
    getSafeJson j = j := by
  cases j with
  | null => rfl
  | bool b => rfl
  | num n => rfl
  | str s => rfl
  | arr elems =>
      simp only [getSafeJson]
      exact congrArg Json.arr (getSafeJsonList_eq_self elems (by
        simpa [noUnsafeKeys] using h))
  | obj fields =>
      simp only [getSafeJson]
      exact congrArg Json.obj (getSafeJsonFields_eq_self fields (by
        simpa [noUnsafeKeys] using h))

theorem getSafeJsonList_eq_self (elems : JsonList)
    (h : noUnsafeKeysList elems = true) : getSafeJsonList elems = elems := by
  cases elems with
  | nil => rfl
  | cons head tail =>
      simp only [noUnsafeKeysList, Bool.and_eq_true] at h
      simp only [getSafeJsonList]
      rw [getSafeJson_eq_self head h.1, getSafeJsonList_eq_self tail h.2]

theorem getSafeJsonFields_eq_self (fields : JsonFields)
    (h : noUnsafeKeysFields fields = true) :
    getSafeJsonFields fields = fields := by
  cases fields with
  | nil => rfl
  | cons k v tail =>
      simp only [noUnsafeKeysFields, Bool.and_eq_true, decide_eq_true_eq] at h
      simp only [getSafeJsonFields]
      rw [if_neg (by
        push_neg
        exact ⟨h.1.1.1, h.1.1.2⟩)]
      rw [getSafeJson_eq_self v h.1.2, getSafeJsonFields_eq_self tail h.2]

end

theorem getSafeJsonFields_lookup (key : String) (h1 : key ≠ "__proto__")
    (h2 : key ≠ "constructor") :
    ∀ fields : JsonFields,
      (getSafeJsonFields fields).lookup key = (fields.lookup key).map getSafeJson
  | .nil => rfl
  | .cons k v tail => by
      have ih := getSafeJsonFields_lookup key h1 h2 tail
      by_cases hk : k = "__proto__" ∨ k = "constructor"
      · have hne : k ≠ key := by
          rcases hk with hk | hk
          · subst hk
            exact fun hkey => h1 hkey.symm
          · subst hk
            exact fun hkey => h2 hkey.symm
        simp only [getSafeJsonFields, if_pos hk, JsonFields.lookup, if_neg hne, ih]
      · push_neg at hk
        obtain ⟨hp, hc⟩ := hk
        by_cases hkey : k = key
        · subst hkey
          simp [getSafeJsonFields, hp, hc, JsonFields.lookup]
        · simp [getSafeJsonFields, hp, hc, JsonFields.lookup, hkey, ih]

theorem isCommandShape_getSafeJson (d : Json) :
    isCommandShape (getSafeJson d) = isCommandShape d := by
  cases d with
  | obj fields =>
      simp only [isCommandShape, getSafeJson]
      rw [getSafeJsonFields_lookup "method" (by decide) (by decide) fields,
        getSafeJsonFields_lookup "id" (by decide) (by decide) fields]
      cases hm : fields.lookup "method" with
      | none => rfl
      | some v =>
          cases hi : fields.lookup "id" with
          | none => cases v <;> rfl
          | some w => cases v <;> cases w <;> rfl
  | null => rfl
  | bool b => rfl
  | num n => rfl
  | str s => rfl
  | arr elems => rfl

theorem isResponseShape_getSafeJson (d : Json) :
    isResponseShape (getSafeJson d) = isResponseShape d := by
  cases d with
  | obj fields =>
      simp only [isResponseShape, getSafeJson]
      rw [getSafeJsonFields_lookup "id" (by decide) (by decide) fields,
        getSafeJsonFields_lookup "result" (by decide) (by decide) fields,
        getSafeJsonFields_lookup "error" (by decide) (by decide) fields]
      cases hi : fields.lookup "id" with
      | none => rfl
      | some v => cases v <;> simp [getSafeJson, Option.isSome_map]
  | null => rfl
  | bool b => rfl
  | num n => rfl
  | str s => rfl
  | arr elems => rfl

theorem wellFormedPayload_getSafeJson (d : Json) :
    wellFormedPayload (getSafeJson d) = wellFormedPayload d := by
  simp [wellFormedPayload, isCommandShape_getSafeJson, isResponseShape_getSafeJson]

/-- C3 counterexample: decoding is not the identity on payload contents; the
safe parse performed by parseJson removes the `__proto__` property, so the
decoded value differs from the structurally well-formed input. -/
theorem parseJson_counterexample :
    parseJson (Json.obj (.cons "__proto__" Json.null .nil)) ≠
      Json.obj (.cons "__proto__" Json.null .nil) := by
  decide

/-- C3 (amended): decoding performs no sanitization of the payload contents
beyond structural validation and the stripping of the reserved `__proto__`
and `constructor` properties: every input containing neither key decodes to
exactly itself, with no other property removed or altered. -/
theorem parseJson_no_other_sanitization (j : Json) (h : noUnsafeKeys j = true) :
    parseJson j = j :=
  getSafeJson_eq_self j h

/-- Witness for the amended C3 theorem at a concrete object input. -/
theorem parseJson_no_other_sanitization_witness :
    noUnsafeKeys (Json.obj (.cons "a" (Json.num 1) .nil)) = true ∧
      parseJson (Json.obj (.cons "a" (Json.num 1) .nil)) =
        Json.obj (.cons "a" (Json.num 1) .nil) :=
  ⟨by decide, parseJson_no_other_sanitization _ (by decide)⟩

/-- C4: decoding is a total function into Except: a structure missing jobId,
a data field that is not a well-formed command or response shape, and input
that is not valid serialized structured data all report a DecodeError value
(never an exception into caller state), and the boundary handler logs and
drops each such error, delivering nothing to any pending caller and leaving
the registry untouched. -/
theorem decode_malformed_reports_error :
    (decode none = Except.error DecodeError.invalidJson) ∧
    (∀ fields : JsonFields, fields.lookup "jobId" = none →
      decode (some (Json.obj fields)) = Except.error DecodeError.missingJobId) ∧
    (∀ (fields : JsonFields) (jid : String),
      fields.lookup "jobId" = some (Json.str jid) →
      fields.lookup "data" = none →
      decode (some (Json.obj fields)) = Except.error DecodeError.malformedData) ∧
    (∀ (fields : JsonFields) (jid : String) (d : Json),
      fields.lookup "jobId" = some (Json.str jid) →
      fields.lookup "data" = some d →
      wellFormedPayload d = false →
      decode (some (Json.obj fields)) = Except.error DecodeError.malformedData) ∧
    (∀ (st : ExecState) (wire : Option Json) (e : DecodeError),
      decode wire = Except.error e →
      handleIncoming st wire = (st, [], [LogEntry.decodeFailure e])) := by
  refine ⟨rfl, ?_, ?_, ?_, ?_⟩
  · intro fields h
    simp [decode, parseJson, getSafeJson, decodeValue,
      getSafeJsonFields_lookup "jobId" (by decide) (by decide) fields, h]
  · intro fields jid h1 h2
    simp [decode, parseJson, getSafeJson, decodeValue,
      getSafeJsonFields_lookup "jobId" (by decide) (by decide) fields,
      getSafeJsonFields_lookup "data" (by decide) (by decide) fields, h1, h2]
  · intro fields jid d h1 h2 h3
    simp [decode, parseJson, getSafeJson, decodeValue,
      getSafeJsonFields_lookup "jobId" (by decide) (by decide) fields,
      getSafeJsonFields_lookup "data" (by decide) (by decide) fields, h1, h2,
      wellFormedPayload_getSafeJson, h3]
  · intro st wire e h
    simp [handleIncoming, h]

/-- Witness for the C4 theorem: an object with no jobId field decodes to the
missingJobId error. -/
theorem decode_malformed_reports_error_witness :
    decode (some (Json.obj JsonFields.nil)) = Except.error DecodeError.missingJobId :=
  decode_malformed_reports_error.2.1 JsonFields.nil rfl

/-- C5 (amended): encoding then decoding an envelope yields the original
jobId and payload unchanged for every well-formed payload that contains no
reserved `__proto__` or `constructor` key (the safe parse strips those keys,
so on payloads containing them the round trip is not the identity). -/
theorem decode_encode_roundtrip (jobId : String) (payload : Json)
    (h1 : wellFormedPayload payload = true) (h2 : noUnsafeKeys payload = true) :
    decode (some (encode jobId payload)) = Except.ok (jobId, payload) := by
  simp only [decode, parseJson, encode, getSafeJson, getSafeJsonFields]
  rw [if_neg (by decide), if_neg (by decide), getSafeJson_eq_self payload h2]
  simp [decodeValue, JsonFields.lookup, getSafeJson, h1]

/-- Witness for the C5 round-trip theorem at a concrete ping command. -/
theorem decode_encode_roundtrip_witness :
    wellFormedPayload
        (Json.obj (.cons "method" (.str "ping") (.cons "id" (.num 1) .nil))) = true ∧
    noUnsafeKeys
        (Json.obj (.cons "method" (.str "ping") (.cons "id" (.num 1) .nil))) = true ∧
    decode (some (encode "A"
        (Json.obj (.cons "method" (.str "ping") (.cons "id" (.num 1) .nil))))) =
      Except.ok ("A",
        Json.obj (.cons "method" (.str "ping") (.cons "id" (.num 1) .nil))) :=
  ⟨by decide, by decide, decode_encode_roundtrip "A" _ (by decide) (by decide)⟩

/-- C5 counterexample: a well-formed command payload carrying a `__proto__`
property does not survive the round trip unchanged; the decoded payload has
the property stripped. -/
theorem decode_encode_roundtrip_counterexample :
    wellFormedPayload
        (Json.obj (.cons "method" (.str "ping") (.cons "id" (.num 1)
          (.cons "__proto__" Json.null .nil)))) = true ∧
    decode (some (encode "A"
        (Json.obj (.cons "method" (.str "ping") (.cons "id" (.num 1)
          (.cons "__proto__" Json.null .nil)))))) =
      Except.ok ("A",
        Json.obj (.cons "method" (.str "ping") (.cons "id" (.num 1) .nil))) ∧
    Json.obj (.cons "method" (.str "ping") (.cons "id" (.num 1) .nil)) ≠
      Json.obj (.cons "method" (.str "ping") (.cons "id" (.num 1)
        (.cons "__proto__" Json.null .nil))) :=
  ⟨by decide, rfl, by decide⟩

theorem find?_filter_ne_eq_none (jobId : String) :
    ∀ l : List ExecJob,
      (l.filter (fun j => decide (j.id ≠ jobId))).find?
        (fun j => decide (j.id = jobId)) = none
  | [] => rfl
  | j :: l => by
      by_cases h : j.id = jobId
      · simp [List.filter_cons, h, find?_filter_ne_eq_none jobId l]
      · simp [List.filter_cons, List.find?_cons, h, find?_filter_ne_eq_none jobId l]

theorem findJob_terminate_self (st : ExecState) (jobId : String) :
    findJob (terminateJob st jobId).1 jobId = none := by
  cases h : findJob st jobId with
  | none => simp [terminateJob, h]
  | some job =>
      simp only [terminateJob, h]
      exact find?_filter_ne_eq_none jobId st.jobs

theorem filter_ne_self_of_not_mem {l : List String} {jobId : String}
    (h : jobId ∉ l) : l.filter (fun j => !decide (j = jobId)) = l := by
  refine List.filter_eq_self.mpr ?_
  intro a ha
  simp only [Bool.not_eq_true', decide_eq_false_iff_not]
  intro heq
  exact h (heq ▸ ha)

theorem relay_terminate_absent_noop (rst : RelayState) (jobId : String)
    (r : Int) (hj : jobId ∉ rst.jobs) (he : jobId ∉ rst.elements) :
    handleInbound rst jobId "terminateJob" r = (rst, []) := by
  simp [handleInbound, filter_ne_self_of_not_mem hj, filter_ne_self_of_not_mem he]

/-- C6: terminateJob is idempotent on the registry and on the relay state:
after terminating a job id, terminating it again is a no-op on the
Execution Service registry producing no teardown effects; terminating an id
with no registry entry (never created or already terminated) is a no-op
producing no teardown effects and no error; a duplicate terminateJob
through the relay leaves the relay state unchanged and emits nothing; and a
relay terminateJob for an id with no nested context is a no-op on the relay
state. -/
theorem terminateJob_idempotent (st : ExecState) (rst : RelayState)
    (jobId : String) (r1 r2 : Int) :
    terminateJob (terminateJob st jobId).1 jobId = ((terminateJob st jobId).1, []) ∧
    (findJob st jobId = none → terminateJob st jobId = (st, [])) ∧
    handleInbound (handleInbound rst jobId "terminateJob" r1).1 jobId
        "terminateJob" r2 = ((handleInbound rst jobId "terminateJob" r1).1, []) ∧
    (jobId ∉ rst.jobs → jobId ∉ rst.elements →
      handleInbound rst jobId "terminateJob" r1 = (rst, [])) := by
  refine ⟨?_, ?_, ?_, ?_⟩
  · have h := findJob_terminate_self st jobId
    generalize hX : (terminateJob st jobId).1 = X at h ⊢
    simp [terminateJob, h]
  · intro h
    simp [terminateJob, h]
  · have hj : jobId ∉ (handleInbound rst jobId "terminateJob" r1).1.jobs := by
      simp [handleInbound]
    have he : jobId ∉ (handleInbound rst jobId "terminateJob" r1).1.elements := by
      simp [handleInbound]
    exact relay_terminate_absent_noop _ jobId r2 hj he
  · intro hj he
    exact relay_terminate_absent_noop rst jobId r1 hj he

/-- Witness for the C6 theorem: terminating an id in an empty registry, and
through a relay with no nested contexts, is a no-op with no effects. -/
theorem terminateJob_idempotent_witness :
    terminateJob (ExecState.mk []) "a" = (ExecState.mk [], []) ∧
    handleInbound (RelayState.mk [] []) "a" "terminateJob" 1 =
      (RelayState.mk [] [], []) :=
  ⟨(terminateJob_idempotent (ExecState.mk []) (RelayState.mk [] []) "a" 1 1).2.1 rfl,
    (terminateJob_idempotent (ExecState.mk []) (RelayState.mk [] []) "a" 1 1).2.2.2
      (by simp) (by simp)⟩

theorem find?_map_of_fix (p : ExecJob → Bool) (f : ExecJob → ExecJob)
    (hp : ∀ a, p (f a) = p a) (hfix : ∀ a, p a = true → f a = a) :
    ∀ l : List ExecJob, (l.map f).find? p = l.find? p
  | [] => rfl
  | a :: l => by
      rw [List.map_cons]
      by_cases h : p a = true
      · rw [List.find?_cons_of_pos _ (by rw [hp]; exact h),
          List.find?_cons_of_pos _ h, hfix a h]
      · have hfa : ¬p (f a) = true := by rw [hp]; exact h
        rw [List.find?_cons_of_neg _ hfa, List.find?_cons_of_neg _ h,
          find?_map_of_fix p f hp hfix l]

theorem find?_map_resolve (j1 j2 : String) (r : Int) (hne : j1 ≠ j2)
    (l : List ExecJob) :
    (l.map (fun j => if j.id = j1 then
        { j with pending := j.pending.filter (fun x => decide (x ≠ r)) }
      else j)).find? (fun j => decide (j.id = j2)) =
    l.find? (fun j => decide (j.id = j2)) := by
  refine find?_map_of_fix _ _ ?_ ?_ l
  · intro a
    by_cases h : a.id = j1
    · simp [h]
    · simp [h]
  · intro a ha
    have h2 : a.id = j2 := by simpa using ha
    have h1 : ¬a.id = j1 := by rw [h2]; exact fun hc => hne hc.symm
    simp [h1]

theorem execJob_eq_of_id_eq {l : List ExecJob}
    (hnodup : (l.map ExecJob.id).Nodup) {a b : ExecJob}
    (ha : a ∈ l) (hb : b ∈ l) (hid : a.id = b.id) : a = b :=
  List.inj_on_of_nodup_map hnodup ha hb hid

/-- C8: jobs are isolated: a response correlated to job j1 never resolves a
pending request belonging to a different job j2 and leaves the record of j2
untouched; when the job ids are distinct (registry invariant), a delivered
response matches an entry in exactly one job's pending table; a response
matching no pending entry is dropped and logged, never delivered. -/
theorem onResponse_isolation (st : ExecState) (j1 j2 : String) (r : Int)
    (hne : j1 ≠ j2) :
    (∀ r2 : Int, Delivery.resolve j2 r2 ∉ (onResponse st j1 r).2) ∧
    (findJob (onResponse st j1 r).1 j2 = findJob st j2) ∧
    ((st.jobs.map ExecJob.id).Nodup →
      (onResponse st j1 r).2 = [Delivery.resolve j1 r] →
      ∃! job : ExecJob, job ∈ st.jobs ∧ job.id = j1 ∧ r ∈ job.pending) ∧
    ((∀ job : ExecJob, findJob st j1 = some job → r ∉ job.pending) →
      (onResponse st j1 r).2 = [Delivery.dropLog]) := by
  refine ⟨?_, ?_, ?_, ?_⟩
  · intro r2
    cases h : findJob st j1 with
    | none => simp [onResponse, h]
    | some job =>
        by_cases hp : r ∈ job.pending
        · simp [onResponse, h, hp, hne.symm]
        · simp [onResponse, h, hp]
  · cases h : findJob st j1 with
    | none => simp [onResponse, h]
    | some job =>
        by_cases hp : r ∈ job.pending
        · simp only [onResponse, h, if_pos hp]
          exact find?_map_resolve j1 j2 r hne st.jobs
        · simp [onResponse, h, hp]
  · intro hnodup hdeliv
    cases h : findJob st j1 with
    | none => simp [onResponse, h] at hdeliv
    | some job =>
        by_cases hp : r ∈ job.pending
        · have hmem : job ∈ st.jobs := List.mem_of_find?_eq_some h
          have hid : job.id = j1 := by
            have := List.find?_some h
            simpa using this
          refine ⟨job, ⟨hmem, hid, hp⟩, ?_⟩
          intro job2 ⟨hmem2, hid2, _⟩
          exact execJob_eq_of_id_eq hnodup hmem2 hmem (hid2.trans hid.symm)
        · simp [onResponse, h, hp] at hdeliv
  · intro hnomatch
    cases h : findJob st j1 with
    | none => simp [onResponse, h]
    | some job =>
        have hp := hnomatch job h
        simp [onResponse, h, hp]

/-- Witness for the C8 isolation theorem at a concrete two-job registry. -/
theorem onResponse_isolation_witness :
    Delivery.resolve "b" 1 ∉
      (onResponse (ExecState.mk [ExecJob.mk "a" [1], ExecJob.mk "b" [1]]) "a" 1).2 :=
  (onResponse_isolation (ExecState.mk [ExecJob.mk "a" [1], ExecJob.mk "b" [1]])
    "a" "b" 1 (by decide)).1 1

/-- C1: a ping command relayed for a jobId with no existing nested context
creates a nested context (and its execution element) for that jobId and
emits exactly one response envelope on the outer stream, carrying the
original jobId, the command's request id and the fixed success result of the
ping liveness probe. -/
theorem relay_ping_creates_context (st : RelayState) (jobId : String)
    (reqId : Int) (h : jobId ∉ st.jobs) :
    (handleInbound st jobId "ping" reqId).1.jobs = jobId :: st.jobs ∧
    (handleInbound st jobId "ping" reqId).1.elements = jobId :: st.elements ∧
    (handleInbound st jobId "ping" reqId).2 = [(jobId, pingResponse reqId)] := by
  refine ⟨?_, ?_, ?_⟩ <;> simp [handleInbound, nestedExecute, h]

/-- Witness for the C1 theorem: a ping for a fresh jobId on an empty relay. -/
theorem relay_ping_creates_context_witness :
    (handleInbound (RelayState.mk [] []) "A" "ping" 1).1.jobs = ["A"] ∧
    (handleInbound (RelayState.mk [] []) "A" "ping" 1).1.elements = ["A"] ∧
    (handleInbound (RelayState.mk [] []) "A" "ping" 1).2 = [("A", pingResponse 1)] :=
  relay_ping_creates_context (RelayState.mk [] []) "A" 1 (by simp)

/-- C2: a terminateJob command for a jobId with an active nested context
destroys that context (the execution element with the job's id is removed)
and erases the jobId from the relay's job mapping, so that a subsequent
command for the same jobId creates a fresh nested context. -/
theorem relay_terminate_destroys_context (st : RelayState) (jobId : String)
    (reqId reqId2 : Int) (h : jobId ∈ st.jobs) :
    jobId ∉ (handleInbound st jobId "terminateJob" reqId).1.jobs ∧
    jobId ∉ (handleInbound st jobId "terminateJob" reqId).1.elements ∧
    (handleInbound (handleInbound st jobId "terminateJob" reqId).1 jobId
        "ping" reqId2).1.jobs =
      jobId :: (handleInbound st jobId "terminateJob" reqId).1.jobs ∧
    (handleInbound (handleInbound st jobId "terminateJob" reqId).1 jobId
        "ping" reqId2).2 = [(jobId, pingResponse reqId2)] := by
  have hnotin : jobId ∉ (handleInbound st jobId "terminateJob" reqId).1.jobs := by
    simp [handleInbound]
  have hnotel : jobId ∉ (handleInbound st jobId "terminateJob" reqId).1.elements := by
    simp [handleInbound]
  refine ⟨hnotin, hnotel, ?_, ?_⟩
  · exact (relay_ping_creates_context _ jobId reqId2 hnotin).1
  · exact (relay_ping_creates_context _ jobId reqId2 hnotin).2.2

/-- Witness for the C2 theorem: terminating the only active job of a relay. -/
theorem relay_terminate_destroys_context_witness :
    "A" ∉ (handleInbound (RelayState.mk ["A"] ["A"]) "A" "terminateJob" 2).1.jobs :=
  (relay_terminate_destroys_context (RelayState.mk ["A"] ["A"]) "A" 2 3 (by simp)).1

/-- C7: liveness policy: every outbound command resets the job's timeout
handle to now plus the configured limit, and when no response arrives
before the deadline, firing the timeout terminates the whole job and
rejects every still-pending request of that job with CommandTimeoutError. -/
theorem liveness_timeout_terminates (limit : Nat) (st : TimedState)
    (reqId : Int) (d dt : Nat) (hd : st.job.deadline = some d)
    (hexp : d ≤ st.now + dt) :
    (timedStep limit st (.send reqId)).1.job.deadline = some (st.now + limit) ∧
    (timedRun limit st [.advance dt, .checkTimeout]).1.job.status =
      JobStatus.terminated ∧
    (timedRun limit st [.advance dt, .checkTimeout]).2 =
      st.job.pending.map LivenessOutcome.rejectTimeout := by
  refine ⟨rfl, ?_, ?_⟩ <;>
    simp [timedRun, timedStep, hd, hexp]

/-- Witness for the C7 theorem: a job with one pending request whose
deadline has passed is terminated and its request rejected. -/
theorem liveness_timeout_terminates_witness :
    (timedStep 100 (TimedState.mk 0 (TimedJob.mk JobStatus.busy [1] (some 5)))
        (.send 7)).1.job.deadline = some 100 ∧
    (timedRun 100 (TimedState.mk 0 (TimedJob.mk JobStatus.busy [1] (some 5)))
        [.advance 5, .checkTimeout]).1.job.status = JobStatus.terminated ∧
    (timedRun 100 (TimedState.mk 0 (TimedJob.mk JobStatus.busy [1] (some 5)))
        [.advance 5, .checkTimeout]).2 = [LivenessOutcome.rejectTimeout 1] :=
  liveness_timeout_terminates 100
    (TimedState.mk 0 (TimedJob.mk JobStatus.busy [1] (some 5))) 7 5 5 rfl
    (by decide)

/-- C9: startServer throws before creating or listening on the HTTP server
whenever its precondition fails: an empty root option, a root that is not a
directory, a snap.manifest.json that does not read and parse as a valid
snap manifest, or a manifest bundle path that is not a file; in every such
case the result is an error and no server is started. -/
theorem startServer_requires_valid_root (env : FileSystem) (options : ServerOptions) :
    (options.root = "" →
      startServer env options =
        (Except.error "You must specify a root directory.", false)) ∧
    (env.isDirectory options.root = false →
      (startServer env options).2 = false ∧
      ∃ msg, (startServer env options).1 = Except.error msg) ∧
    (∀ e, env.readManifest (pathResolve options.root "snap.manifest.json") =
        Except.error e →
      (startServer env options).2 = false ∧
      ∃ msg, (startServer env options).1 = Except.error msg) ∧
    (∀ m, env.readManifest (pathResolve options.root "snap.manifest.json") =
        Except.ok m →
      env.isFile (pathResolve options.root m.source.location.npm.filePath) = false →
      (startServer env options).2 = false ∧
      ∃ msg, (startServer env options).1 = Except.error msg) := by
  have key : ∀ e, assertRoot env options.root = Except.error e →
      (startServer env options).2 = false ∧
      ∃ msg, (startServer env options).1 = Except.error msg := by
    intro e he
    exact ⟨by simp [startServer, he], e, by simp [startServer, he]⟩
  refine ⟨?_, ?_, ?_, ?_⟩
  · intro h
    simp [startServer, assertRoot, h]
  · intro h
    by_cases h0 : options.root = ""
    · exact key _ (by simp [assertRoot, h0]; rfl)
    · exact key _ (by simp [assertRoot, h0, h]; rfl)
  · intro e he
    by_cases h0 : options.root = ""
    · exact key _ (by simp [assertRoot, h0]; rfl)
    · by_cases h1 : env.isDirectory options.root = false
      · exact key _ (by simp [assertRoot, h0, h1]; rfl)
      · have h1t : env.isDirectory options.root = true := by simpa using h1
        exact key _ (by simp [assertRoot, h0, h1t, he]; rfl)
  · intro m hm hfile
    by_cases h0 : options.root = ""
    · exact key _ (by simp [assertRoot, h0]; rfl)
    · by_cases h1 : env.isDirectory options.root = false
      · exact key _ (by simp [assertRoot, h0, h1]; rfl)
      · have h1t : env.isDirectory options.root = true := by simpa using h1
        exact key _ (by simp [assertRoot, h0, h1t, hm, hfile]; rfl)

/-- Witness for the C9 theorem: an empty root makes startServer fail with
the fixed error and start no server. -/
theorem startServer_requires_valid_root_witness :
    startServer
        (FileSystem.mk (fun _ => false) (fun _ => false)
          (fun _ => Except.error "missing"))
        (ServerOptions.mk 8080 "") =
      (Except.error "You must specify a root directory.", false) :=
  (startServer_requires_valid_root
    (FileSystem.mk (fun _ => false) (fun _ => false)
      (fun _ => Except.error "missing"))
    (ServerOptions.mk 8080 "")).1 rfl

/-- C10: the manifest command requests writing the fixed manifest to disk if
and only if the fix option is the boolean value true; when fix is undefined
or any non-boolean value, the write flag passed to the validation step is
false. -/
theorem manifest_write_iff_fix_true (input : String) (options : ManifestOptions) :
    (validateManifestCall input options).2 = true ↔
      options.fix = JsValue.bool true := by
  cases h : options.fix <;> simp [validateManifestCall, getWriteManifest, h]

end Snaps
